import Mathlib

/-!
Verification of the resolution-selection logic of a command-line video
downloader (`downloader.py`).

The embedding models:
  * a yt-dlp format record as a structure of optional fields
    (`height`, `vcodec`, `filesize`, `filesize_approx`); a Python key that
    is absent, and a key present with value `None`, are both modelled as
    `Option.none`;
  * the Python dict `matches` of `available_resolutions` as an
    insertion-ordered association list (`dictGet` / `dictSet` mirror
    `dict.get` and item assignment);
  * standard input as a finite list of lines; the unbounded prompt loop
    returns `none` when the list is exhausted (in reality it would keep
    blocking for more input);
  * the yt-dlp collaborator's download call as its integer return status;
  * Python's `str.strip()` with its exact whitespace set (`pyIsSpace`), and
    the `str.isdigit()` / `int()` pair with the ASCII digits as the decimal
    class and the superscript digits `¹` `²` `³` as representatives of the
    digit-like characters `int()` rejects — the pair that lets the prompt
    loop raise an uncaught `ValueError` (`PromptResult.raised`).
-/

namespace Downloader

/-- One encoding variant reported by metadata extraction
(`formats` entries in `downloader.py`). -/
structure FormatRecord where
  height : Option Nat
  vcodec : Option String
  filesize : Option Nat
  filesize_approx : Option Nat
deriving DecidableEq, Repr

/-- `SUPPORTED_HEIGHTS = [360, 480, 720, 1080, 1440, 2160]` (line 15). -/
def SUPPORTED_HEIGHTS : List Nat := [360, 480, 720, 1080, 1440, 2160]

/-- `matches.get(height)`: first binding of the key in the association list,
`none` when absent (Python dict lookup). -/
def dictGet (m : List (Nat × FormatRecord)) (k : Nat) : Option FormatRecord :=
  match m with
  | [] => none
  | (k', v) :: rest => if k' = k then some v else dictGet rest k

/-- `matches[height] = fmt`: update in place when the key exists, else append
(Python dict item assignment, insertion order preserved). -/
def dictSet (m : List (Nat × FormatRecord)) (k : Nat) (v : FormatRecord) :
    List (Nat × FormatRecord) :=
  match m with
  | [] => [(k, v)]
  | (k', v') :: rest => if k' = k then (k', v) :: rest else (k', v') :: dictSet rest k v

/-- The body of the `for fmt in formats` loop of `available_resolutions`
(lines 31-44), one record at a time, with the running dict (called `ms`
here, `matches` in the source) made explicit.  `fmt.get("height")` falsy
covers both a missing height and height `0`, hence the `getD 0 = 0` test.
`if not current` (line 40) only fires when `current` is `None`: every stored
record has a `height` key, so it is never an empty (falsy) dict. -/
def stepDict (ms : List (Nat × FormatRecord)) (fmt : FormatRecord) :
    List (Nat × FormatRecord) :=
  if fmt.height.getD 0 = 0 ∨ fmt.vcodec = some "none" then ms
  else if fmt.height.getD 0 ∈ SUPPORTED_HEIGHTS then
    match dictGet ms (fmt.height.getD 0) with
    | none => dictSet ms (fmt.height.getD 0) fmt
    | some current =>
      if fmt.filesize.getD 0 ≠ 0 ∧ fmt.filesize.getD 0 > current.filesize.getD 0 then
        dictSet ms (fmt.height.getD 0) fmt
      else ms
  else ms

/-- `available_resolutions` (lines 28-45): mapping of supported heights to the
representative format record, as an insertion-ordered association list built
by folding the loop body over the input records. -/
def available_resolutions (formats : List FormatRecord) : List (Nat × FormatRecord) :=
  formats.foldl stepDict []

/-- `build_format_string` (lines 48-54). -/
def build_format_string (height : Nat) : String :=
  s!"bestvideo[height={height}][ext=mp4]+bestaudio[ext=m4a]/bestvideo[height={height}]+bestaudio/best[height={height}]"

/-- `SUPPORTED_HEIGHTS.index(h)` (line 63). Keys of the match table are always
members of the catalog, so the `ValueError` branch of `list.index` is dead. -/
def catalogIndex (h : Nat) : Nat := SUPPORTED_HEIGHTS.indexOf h

/-- Stable insertion of one binding into a list sorted by `catalogIndex`;
equal keys keep their original relative order, as Python's stable `sorted`. -/
def insertSorted (x : Nat × FormatRecord) :
    List (Nat × FormatRecord) → List (Nat × FormatRecord)
  | [] => [x]
  | y :: ys =>
    if catalogIndex y.1 ≤ catalogIndex x.1 then y :: insertSorted x ys else x :: y :: ys

/-- `sorted(matches.items(), key=lambda item: SUPPORTED_HEIGHTS.index(item[0]))`
(line 63), as a stable insertion sort. -/
def sortByCatalog : List (Nat × FormatRecord) → List (Nat × FormatRecord)
  | [] => []
  | x :: xs => insertSorted x (sortByCatalog xs)

/-- The size estimate surfaced to the user (lines 65-69): `filesize` when
truthy, else `filesize_approx` when truthy, else none. -/
def sizeBytes (fmt : FormatRecord) : Option Nat :=
  if fmt.filesize.getD 0 ≠ 0 then fmt.filesize
  else if fmt.filesize_approx.getD 0 ≠ 0 then fmt.filesize_approx
  else none

/-- Round `num / den` to the nearest integer, ties to even.  Models Python's
`f"{x:.1f}"` (with `num = bytes * 10`, `den = 2^20`): the doubles arising here
are exact binary fractions, so decimal formatting rounds the exact value. -/
def roundTiesEven (num den : Nat) : Nat :=
  if 2 * (num % den) < den then num / den
  else if den < 2 * (num % den) then num / den + 1
  else if num / den % 2 = 0 then num / den else num / den + 1

/-- `f"{size_mb:.1f}"` for `size_mb = bytes / (1024 * 1024)` (lines 67-70). -/
def mbText (bytes : Nat) : String :=
  let tenths := roundTiesEven (bytes * 10) (1024 * 1024)
  let whole := tenths / 10
  let frac := tenths % 10
  s!"{whole}.{frac}"

/-- One menu line `f"  {idx}. {height}p{size_text}"` (lines 70-71); the size
suffix appears only when a size estimate is known. -/
def menuLine (idx height : Nat) (fmt : FormatRecord) : String :=
  let sizeText :=
    match sizeBytes fmt with
    | none => ""
    | some b =>
      let mb := mbText b
      s!" (~{mb} MB)"
  s!"  {idx}. {height}p{sizeText}"

/-- All menu lines printed by `prompt_for_resolution` (lines 63-71), in order:
`enumerate(ordered, start=1)` over the catalog-sorted table. -/
def menuLines (ms : List (Nat × FormatRecord)) : List String :=
  (sortByCatalog ms).enum.map (fun p => menuLine (p.1 + 1) p.2.1 p.2.2)

/-- The characters for which Python's `str.isspace()` is true — exactly the
set `str.strip()` (line 74) removes: ASCII whitespace and separators
(U+0009-U+000D, U+001C-U+001F, U+0020), NEL (U+0085), NBSP (U+00A0), Ogham
space (U+1680), the U+2000-U+200A spaces, line/paragraph separators
(U+2028, U+2029), narrow NBSP (U+202F), medium mathematical space (U+205F),
and ideographic space (U+3000). -/
def pyIsSpace (c : Char) : Bool :=
  decide ((9 ≤ c.toNat ∧ c.toNat ≤ 13) ∨ (28 ≤ c.toNat ∧ c.toNat ≤ 31) ∨
    c.toNat = 32 ∨ c.toNat = 133 ∨ c.toNat = 160 ∨ c.toNat = 5760 ∨
    (8192 ≤ c.toNat ∧ c.toNat ≤ 8202) ∨ c.toNat = 8232 ∨ c.toNat = 8233 ∨
    c.toNat = 8239 ∨ c.toNat = 8287 ∨ c.toNat = 12288)

/-- Python's `str.strip()` (line 74) over the character list: drop leading and
trailing `str.isspace()` characters. -/
def pyStrip (cs : List Char) : List Char :=
  ((cs.dropWhile pyIsSpace).reverse.dropWhile pyIsSpace).reverse

/-- The value of a run of decimal digits. -/
def digitsToNat (cs : List Char) : Nat :=
  cs.foldl (fun n c => n * 10 + (c.toNat - Char.toNat '0')) 0

/-- Python's `str.isdigit()` (line 78) on one character.  It is true for the
Unicode decimal digits (category Nd — all of which `int()` accepts) and for
further digit-like characters with `Numeric_Type=Digit` (superscripts,
circled digits, … — all of which `int()` rejects with `ValueError`).  The
model carries the ASCII digits `0`-`9` as the decimal class and the
superscript digits `¹` `²` `³` as representatives of the non-decimal
class; the remaining Unicode members behave like one of these two. -/
def pyIsDigitChar (c : Char) : Bool :=
  c.isDigit || c = '¹' || c = '²' || c = '³'

/-- `int(selection)` (line 81): parses a run of decimal digits; `none` models
the `ValueError` raised when an `isdigit`-true character is not a decimal
digit (e.g. `int("²")`). -/
def pyIntParse (cs : List Char) : Option Nat :=
  if cs.all Char.isDigit then some (digitsToNat cs) else none

/-- Outcome of the prompt's input loop: a returned selection (or exhausted
input), or an uncaught `ValueError` escaping from `int(selection)`. -/
inductive PromptResult where
  | ret (r : Option Nat)
  | raised
deriving DecidableEq, Repr

/-- The `while True` input loop of `prompt_for_resolution` (lines 73-85) over
a finite list of stdin lines, each handled as its character list;
`ret none` means the line supply was exhausted while the real loop would
still be reprompting, and `raised` an uncaught `ValueError` from
`int(selection)` at line 81 — nothing in `prompt_for_resolution` or `main`
catches it, so the process aborts. -/
def promptLoopPy (ordered : List (Nat × FormatRecord)) : List String → PromptResult
  | [] => PromptResult.ret none
  | line :: rest =>
    let selection := pyStrip line.data
    if selection.isEmpty then promptLoopPy ordered rest
    else if ¬ (selection.all pyIsDigitChar) then promptLoopPy ordered rest
    else
      match pyIntParse selection with
      | none => PromptResult.raised
      | some index =>
        if 1 ≤ index ∧ index ≤ ordered.length then
          PromptResult.ret ((ordered.get? (index - 1)).map Prod.fst)
        else promptLoopPy ordered rest

/-- The loop's selection as the rest of `main` sees it, with a raise collapsed
to "no selection".  This keeps `main_model`'s exit code faithful on every
input — an uncaught exception also terminates the process with exit status
1 — though a crashed run prints a traceback on stderr rather than the "no
supported resolutions" message (see the C7 analysis below). -/
def promptLoop (ordered : List (Nat × FormatRecord)) (inputs : List String) :
    Option Nat :=
  match promptLoopPy ordered inputs with
  | PromptResult.ret r => r
  | PromptResult.raised => none

/-- `prompt_for_resolution` (lines 57-85): `none` for an empty table, else the
height picked by the first valid stdin line. -/
def prompt_for_resolution (ms : List (Nat × FormatRecord)) (inputs : List String) :
    Option Nat :=
  if ms.isEmpty then none
  else promptLoop (sortByCatalog ms) inputs

/-- `"yt-dlp failed to download the requested video."` (line 102). -/
def dlErrMsg : String := "yt-dlp failed to download the requested video."

/-- `download_video` (lines 88-102), reduced to the observable contract: the
collaborator's return status either passes (`ok`) or raises `DownloadError`
with the fixed message. -/
def download_video (downloadStatus : Int) : Except String Unit :=
  if downloadStatus ≠ 0 then Except.error dlErrMsg else Except.ok ()

/-- The warning printed when a requested resolution is absent (lines 132-136). -/
def warnMsg (r : Nat) : String :=
  s!"Requested resolution {r}p is not available for this video. You will need to choose an available option."

/-- The message printed when no supported resolution exists (lines 142-145). -/
def noResMsg : String :=
  "No supported resolutions (360p to 4K) were found for this video."

/-- The resolution `main` ends up with after lines 130-140: the supplied one if
truthy and present in the table, else the prompt's answer; `0` encodes Python's
falsy `None` (no selection). -/
def selectedRes (formats : List FormatRecord) (supplied : Option Nat)
    (inputs : List String) : Nat :=
  let ms := available_resolutions formats
  let resolution :=
    if supplied.getD 0 ≠ 0 ∧ dictGet ms (supplied.getD 0) = none then none else supplied
  (if resolution.getD 0 = 0 then prompt_for_resolution ms inputs else resolution).getD 0

/-- Exit code and stderr lines of one run of `main`. -/
structure MainResult where
  exitCode : Nat
  stderrLines : List String
deriving DecidableEq, Repr

/-- `main` (lines 124-154) from the point the metadata is fetched: `formats`
is the extracted format list, `supplied` the parsed `-r` value, `inputs` the
stdin lines, `downloadStatus` the collaborator's return status. -/
def main_model (formats : List FormatRecord) (supplied : Option Nat)
    (inputs : List String) (downloadStatus : Int) : MainResult :=
  let ms := available_resolutions formats
  let warnNeeded := supplied.getD 0 ≠ 0 ∧ dictGet ms (supplied.getD 0) = none
  let warnLines := if warnNeeded then [warnMsg (supplied.getD 0)] else []
  if selectedRes formats supplied inputs = 0 then
    ⟨1, warnLines ++ [noResMsg]⟩
  else
    match download_video downloadStatus with
    | Except.error msg => ⟨1, warnLines ++ [msg]⟩
    | Except.ok _ => ⟨0, warnLines⟩

/-! ### Derived notions used by the statements -/

/-- Does the Matcher loop route `fmt` to key `h`?  True exactly for the
records retained at height `h` by the filters of lines 32-37. -/
def keepsAt (h : Nat) (fmt : FormatRecord) : Bool :=
  fmt.height == some h && h != 0 && !(fmt.vcodec == some "none") &&
    decide (h ∈ SUPPORTED_HEIGHTS)

/-- The per-height choice of lines 39-44: the held record survives unless the
new one has a known, nonzero, strictly larger `filesize`. -/
def pickBest (acc : Option FormatRecord) (fmt : FormatRecord) : Option FormatRecord :=
  match acc with
  | none => some fmt
  | some c =>
    if fmt.filesize.getD 0 ≠ 0 ∧ fmt.filesize.getD 0 > c.filesize.getD 0 then some fmt
    else some c

/-- Everything the loop stores at key `h` passed the filters: its own height
is `h`, `h` is a catalog height (hence nonzero), and it is not audio-only. -/
def entryInv (p : Nat × FormatRecord) : Prop :=
  p.2.height = some p.1 ∧ p.1 ∈ SUPPORTED_HEIGHTS ∧ p.2.vcodec ≠ some "none" ∧ p.1 ≠ 0

/-- Tier (a) of the spec's three-tier fallback: best separate video stream at
exactly the target height in a specific container (mp4), to be merged with a
compatible (m4a) audio stream.  The yt-dlp selector syntax is the source's;
the tier split follows the spec's wording. -/
def tierExactMp4 (h : Nat) : String :=
  "bestvideo[height=" ++ toString h ++ "][ext=mp4]+bestaudio[ext=m4a]"

/-- Tier (b): the same exact height without the container constraint. -/
def tierExactAny (h : Nat) : String :=
  "bestvideo[height=" ++ toString h ++ "]+bestaudio"

/-- Tier (c): best combined stream at the target height. -/
def tierCombined (h : Nat) : String :=
  "best[height=" ++ toString h ++ "]"

/-! ### Concrete records used in the worked examples -/

/-- The spec example's first record: 720p avc1, 50 MB. -/
def exF1 : FormatRecord := ⟨some 720, some "avc1", some 50000000, none⟩

/-- The spec example's second record: 720p avc1, 80 MB. -/
def exF2 : FormatRecord := ⟨some 720, some "avc1", some 80000000, none⟩

/-- The spec example's third record: 144p avc1, no size. -/
def exF3 : FormatRecord := ⟨some 144, some "avc1", none, none⟩

/-- A retained 720p record with no size estimate. -/
def cfA : FormatRecord := ⟨some 720, some "avc1", none, none⟩

/-- A retained 720p record with a known 100-byte size. -/
def cfB : FormatRecord := ⟨some 720, some "avc1", some 100, none⟩

/-- A record whose height key is present but `0`. -/
def zeroF : FormatRecord := ⟨some 0, some "avc1", some 5000, none⟩

/-! ### Dictionary lemmas -/

theorem dictGet_dictSet_self (m : List (Nat × FormatRecord)) (k : Nat) (v : FormatRecord) :
    dictGet (dictSet m k v) k = some v := by
  induction m with
  | nil => simp [dictSet, dictGet]
  | cons hd tl ih =>
    obtain ⟨k', v'⟩ := hd
    by_cases hk : k' = k
    · simp [dictSet, dictGet, hk]
    · simp [dictSet, dictGet, hk, ih]

theorem dictGet_dictSet_ne (m : List (Nat × FormatRecord)) {k k' : Nat} (v : FormatRecord)
    (hkk : k' ≠ k) : dictGet (dictSet m k v) k' = dictGet m k' := by
  have hkk' : k ≠ k' := Ne.symm hkk
  induction m with
  | nil => simp [dictSet, dictGet, hkk']
  | cons hd tl ih =>
    obtain ⟨k₀, v₀⟩ := hd
    by_cases hk : k₀ = k
    · subst hk
      simp [dictSet, dictGet, hkk']
    · simp [dictSet, dictGet, hk, ih]

theorem dictGet_eq_none_iff (m : List (Nat × FormatRecord)) (k : Nat) :
    dictGet m k = none ↔ k ∉ m.map Prod.fst := by
  induction m with
  | nil => simp [dictGet]
  | cons hd tl ih =>
    obtain ⟨k', v'⟩ := hd
    by_cases hk : k' = k
    · simp [dictGet, hk]
    · have hk' : ¬ k = k' := fun h => hk h.symm
      simp [dictGet, hk, ih, hk']

theorem mem_dictSet (m : List (Nat × FormatRecord)) (k : Nat) (v : FormatRecord)
    (p : Nat × FormatRecord) (hp : p ∈ dictSet m k v) : p = (k, v) ∨ p ∈ m := by
  induction m with
  | nil =>
    simp only [dictSet, List.mem_singleton] at hp
    exact Or.inl hp
  | cons hd tl ih =>
    obtain ⟨k₀, v₀⟩ := hd
    by_cases hk : k₀ = k
    · subst hk
      simp [dictSet] at hp
      rcases hp with h | h
      · exact Or.inl h
      · exact Or.inr (List.mem_cons_of_mem _ h)
    · simp only [dictSet, if_neg hk, List.mem_cons] at hp
      rcases hp with h | h
      · exact Or.inr (by simp [h])
      · rcases ih h with h' | h'
        · exact Or.inl h'
        · exact Or.inr (List.mem_cons_of_mem _ h')

theorem keys_dictSet_of_mem (m : List (Nat × FormatRecord)) {k : Nat} (v : FormatRecord)
    (hk : k ∈ m.map Prod.fst) :
    (dictSet m k v).map Prod.fst = m.map Prod.fst := by
  induction m with
  | nil => simp at hk
  | cons hd tl ih =>
    obtain ⟨k₀, v₀⟩ := hd
    by_cases h : k₀ = k
    · simp [dictSet, h]
    · have hne : ¬ k = k₀ := fun hh => h hh.symm
      have hk2 : k = k₀ ∨ ∃ x, (k, x) ∈ tl := by simpa using hk
      have hk' : k ∈ tl.map Prod.fst := by
        rcases hk2 with h' | ⟨x, hx⟩
        · exact absurd h' hne
        · exact List.mem_map.mpr ⟨(k, x), hx, rfl⟩
      simp [dictSet, h, ih hk']

theorem keys_dictSet_of_not_mem (m : List (Nat × FormatRecord)) {k : Nat} (v : FormatRecord)
    (hk : k ∉ m.map Prod.fst) :
    (dictSet m k v).map Prod.fst = m.map Prod.fst ++ [k] := by
  induction m with
  | nil => simp [dictSet]
  | cons hd tl ih =>
    obtain ⟨k₀, v₀⟩ := hd
    have h : k₀ ≠ k := by
      intro h
      exact hk (by simp [h])
    have hk' : k ∉ tl.map Prod.fst := fun h' => hk (by simp [h'])
    simp [dictSet, h, ih hk']

/-! ### Per-height characterization of the Matcher loop -/

theorem dictGet_stepDict (ms : List (Nat × FormatRecord)) (fmt : FormatRecord) (h : Nat) :
    dictGet (stepDict ms fmt) h =
      if keepsAt h fmt then pickBest (dictGet ms h) fmt else dictGet ms h := by
  by_cases hskip : fmt.height.getD 0 = 0 ∨ fmt.vcodec = some "none"
  · have hk : keepsAt h fmt = false := by
      rcases hskip with h0 | hvc
      · rcases hh : fmt.height with _ | hgt
        · simp [keepsAt, hh]
        · rw [hh] at h0
          simp only [Option.getD_some] at h0
          subst h0
          by_cases hz : h = 0
          · simp [keepsAt, hz]
          · simp [keepsAt, hh, Ne.symm hz]
      · simp [keepsAt, hvc]
    simp [stepDict, hskip, hk]
  · push_neg at hskip
    obtain ⟨h0, hvc⟩ := hskip
    obtain ⟨h₀, hh⟩ : ∃ h₀, fmt.height = some h₀ := by
      rcases hgt : fmt.height with _ | h₀
      · rw [hgt] at h0
        simp at h0
      · exact ⟨h₀, rfl⟩
    rw [hh] at h0
    simp only [Option.getD_some] at h0
    have hskip2 : ¬ (h₀ = 0 ∨ fmt.vcodec = some "none") := by simp [h0, hvc]
    by_cases hsup : fmt.height.getD 0 ∈ SUPPORTED_HEIGHTS
    · have hsup2 : h₀ ∈ SUPPORTED_HEIGHTS := by simpa [hh] using hsup
      by_cases hhh : h₀ = h
      · subst hhh
        have hk : keepsAt h₀ fmt = true := by
          simp [keepsAt, hh, h0, hvc, hsup2]
        rw [if_pos hk]
        rcases hget : dictGet ms h₀ with _ | current
        · simp [stepDict, hh, hskip2, hsup2, hget, dictGet_dictSet_self, pickBest]
        · by_cases hbetter :
              fmt.filesize.getD 0 ≠ 0 ∧ fmt.filesize.getD 0 > current.filesize.getD 0
          · simp [stepDict, hh, hskip2, hsup2, hget, hbetter, dictGet_dictSet_self, pickBest]
          · simp [stepDict, hh, hskip2, hsup2, hget, hbetter, pickBest]
      · have hk : keepsAt h fmt = false := by
          simp [keepsAt, hh, hhh]
        rw [if_neg (by simp [hk])]
        have hne : h ≠ h₀ := fun hc => hhh hc.symm
        rcases hget : dictGet ms h₀ with _ | current
        · simp [stepDict, hh, hskip2, hsup2, hget, dictGet_dictSet_ne ms fmt hne]
        · by_cases hbetter :
              fmt.filesize.getD 0 ≠ 0 ∧ fmt.filesize.getD 0 > current.filesize.getD 0
          · simp [stepDict, hh, hskip2, hsup2, hget, hbetter, dictGet_dictSet_ne ms fmt hne]
          · simp [stepDict, hh, hskip2, hsup2, hget, hbetter]
    · have hsup2 : h₀ ∉ SUPPORTED_HEIGHTS := by simpa [hh] using hsup
      have hk : keepsAt h fmt = false := by
        by_cases hhh : h₀ = h
        · subst hhh
          simp [keepsAt, hsup2]
        · simp [keepsAt, hh, hhh]
      simp [stepDict, hh, hskip2, hsup2, hk]

theorem dictGet_foldl_stepDict (formats : List FormatRecord)
    (ms : List (Nat × FormatRecord)) (h : Nat) :
    dictGet (formats.foldl stepDict ms) h =
      (formats.filter (keepsAt h)).foldl pickBest (dictGet ms h) := by
  induction formats generalizing ms with
  | nil => simp
  | cons fmt rest ih =>
    rw [List.foldl_cons, ih]
    by_cases hk : keepsAt h fmt
    · simp [List.filter_cons, hk, dictGet_stepDict]
    · simp [List.filter_cons, hk, dictGet_stepDict]

/-- What `available_resolutions` holds at height `h`: the fold of the
per-height preference over exactly the records retained at `h`. -/
theorem dictGet_available_resolutions (formats : List FormatRecord) (h : Nat) :
    dictGet (available_resolutions formats) h =
      (formats.filter (keepsAt h)).foldl pickBest none := by
  rw [available_resolutions, dictGet_foldl_stepDict]
  rfl

/-! ### Invariants of the match table -/

theorem entryInv_stepDict (ms : List (Nat × FormatRecord)) (fmt : FormatRecord)
    (hms : ∀ p ∈ ms, entryInv p) : ∀ p ∈ stepDict ms fmt, entryInv p := by
  intro p hp
  by_cases hskip : fmt.height.getD 0 = 0 ∨ fmt.vcodec = some "none"
  · rw [stepDict, if_pos hskip] at hp
    exact hms p hp
  · have hskip' := hskip
    push_neg at hskip'
    obtain ⟨h0, hvc⟩ := hskip'
    by_cases hsup : fmt.height.getD 0 ∈ SUPPORTED_HEIGHTS
    · obtain ⟨h₀, hh⟩ : ∃ h₀, fmt.height = some h₀ := by
        rcases hgt : fmt.height with _ | h₀
        · rw [hgt] at h0
          simp at h0
        · exact ⟨h₀, rfl⟩
      have hnew : entryInv (fmt.height.getD 0, fmt) := ⟨by rw [hh]; rfl, hsup, hvc, h0⟩
      rw [stepDict, if_neg hskip, if_pos hsup] at hp
      rcases hget : dictGet ms (fmt.height.getD 0) with _ | current <;> rw [hget] at hp
      · rcases mem_dictSet _ _ _ _ hp with he | he
        · rw [he]
          exact hnew
        · exact hms p he
      · have hp' : p ∈ (if fmt.filesize.getD 0 ≠ 0 ∧
              fmt.filesize.getD 0 > current.filesize.getD 0 then
            dictSet ms (fmt.height.getD 0) fmt else ms) := hp
        by_cases hbetter :
            fmt.filesize.getD 0 ≠ 0 ∧ fmt.filesize.getD 0 > current.filesize.getD 0
        · rw [if_pos hbetter] at hp'
          rcases mem_dictSet _ _ _ _ hp' with he | he
          · rw [he]
            exact hnew
          · exact hms p he
        · rw [if_neg hbetter] at hp'
          exact hms p hp'
    · rw [stepDict, if_neg hskip, if_neg hsup] at hp
      exact hms p hp

theorem entryInv_available_resolutions (formats : List FormatRecord) :
    ∀ p ∈ available_resolutions formats, entryInv p := by
  rw [available_resolutions]
  have key : ∀ (fs : List FormatRecord) (ms : List (Nat × FormatRecord)),
      (∀ p ∈ ms, entryInv p) → ∀ p ∈ fs.foldl stepDict ms, entryInv p := by
    intro fs
    induction fs with
    | nil => intro ms hms; simpa using hms
    | cons fmt rest ih =>
      intro ms hms
      rw [List.foldl_cons]
      exact ih _ (entryInv_stepDict ms fmt hms)
  exact key formats [] (by simp)

theorem keys_nodup_stepDict (ms : List (Nat × FormatRecord)) (fmt : FormatRecord)
    (hnd : (ms.map Prod.fst).Nodup) : ((stepDict ms fmt).map Prod.fst).Nodup := by
  by_cases hskip : fmt.height.getD 0 = 0 ∨ fmt.vcodec = some "none"
  · rw [stepDict, if_pos hskip]
    exact hnd
  · by_cases hsup : fmt.height.getD 0 ∈ SUPPORTED_HEIGHTS
    · rw [stepDict, if_neg hskip, if_pos hsup]
      rcases hget : dictGet ms (fmt.height.getD 0) with _ | current
      · have hk : fmt.height.getD 0 ∉ ms.map Prod.fst :=
          (dictGet_eq_none_iff ms _).mp hget
        rw [keys_dictSet_of_not_mem ms fmt hk]
        simp [List.nodup_append, hnd, hk]
      · show (List.map Prod.fst (if fmt.filesize.getD 0 ≠ 0 ∧
            fmt.filesize.getD 0 > current.filesize.getD 0 then
          dictSet ms (fmt.height.getD 0) fmt else ms)).Nodup
        by_cases hbetter :
            fmt.filesize.getD 0 ≠ 0 ∧ fmt.filesize.getD 0 > current.filesize.getD 0
        · rw [if_pos hbetter]
          have hk : fmt.height.getD 0 ∈ ms.map Prod.fst := by
            by_contra hk
            rw [(dictGet_eq_none_iff ms _).mpr hk] at hget
            exact Option.noConfusion hget
          rw [keys_dictSet_of_mem ms fmt hk]
          exact hnd
        · rw [if_neg hbetter]
          exact hnd
    · rw [stepDict, if_neg hskip, if_neg hsup]
      exact hnd

theorem keys_nodup_available_resolutions (formats : List FormatRecord) :
    ((available_resolutions formats).map Prod.fst).Nodup := by
  rw [available_resolutions]
  have key : ∀ (fs : List FormatRecord) (ms : List (Nat × FormatRecord)),
      (ms.map Prod.fst).Nodup → ((fs.foldl stepDict ms).map Prod.fst).Nodup := by
    intro fs
    induction fs with
    | nil => intro ms hms; simpa using hms
    | cons fmt rest ih =>
      intro ms hms
      rw [List.foldl_cons]
      exact ih _ (keys_nodup_stepDict ms fmt hms)
  exact key formats [] (by simp)

/-! ### Selector lemmas -/

/-- Catalog heights are nonzero. -/
theorem supported_heights_ne_zero : ∀ r ∈ SUPPORTED_HEIGHTS, r ≠ 0 := by
  intro r hr
  rcases (by simpa [SUPPORTED_HEIGHTS] using hr :
    r = 360 ∨ r = 480 ∨ r = 720 ∨ r = 1080 ∨ r = 1440 ∨ r = 2160) with
    rfl | rfl | rfl | rfl | rfl | rfl <;> decide

theorem mem_keys_of_dictGet {m : List (Nat × FormatRecord)} {k : Nat}
    (hk : dictGet m k ≠ none) : k ∈ m.map Prod.fst := by
  by_contra hmem
  exact hk ((dictGet_eq_none_iff m k).mpr hmem)

/-- A key of the match table is a catalog height. -/
theorem key_mem_supported {formats : List FormatRecord} {r : Nat}
    (hr : dictGet (available_resolutions formats) r ≠ none) :
    r ∈ SUPPORTED_HEIGHTS := by
  rcases List.mem_map.mp (mem_keys_of_dictGet hr) with ⟨p, hp, hpr⟩
  have := (entryInv_available_resolutions formats p hp).2.1
  rwa [hpr] at this

/-! ### Claim theorems -/

/-- C1, counterexample: both `cfA` and `cfB` are retained at height 720 and
their sizes are not both known (`cfA` has none), yet the Matcher keeps the
later record `cfB`, not the first-seen `cfA`.  This refutes "keeps the
first-seen record when the sizes are equal or not both known". -/
theorem matcher_first_seen_counterexample :
    available_resolutions [cfA, cfB] = [(720, cfB)] ∧ cfB ≠ cfA := by decide

/-- C1, amended: when two retained records share a height, the Matcher keeps
the one whose `filesize` — an unknown size counting as zero — is strictly
larger, and keeps the first-seen record when those values are equal or the
later one is not larger.  In particular, with both sizes known it keeps the
strictly larger one and keeps the first-seen record on ties; but a later
record with a known nonzero size replaces a first-seen record whose size is
unknown. -/
theorem matcher_per_height_preference (pre mid post : List FormatRecord)
    (f1 f2 : FormatRecord) (h : Nat)
    (hpre : ∀ g ∈ pre, keepsAt h g = false)
    (hmid : ∀ g ∈ mid, keepsAt h g = false)
    (hpost : ∀ g ∈ post, keepsAt h g = false)
    (h1 : keepsAt h f1 = true) (h2 : keepsAt h f2 = true) :
    dictGet (available_resolutions (pre ++ f1 :: (mid ++ f2 :: post))) h =
      some (if f1.filesize.getD 0 < f2.filesize.getD 0 then f2 else f1) := by
  rw [dictGet_available_resolutions]
  have hfil : (pre ++ f1 :: (mid ++ f2 :: post)).filter (keepsAt h) = [f1, f2] := by
    rw [List.filter_append, List.filter_cons, List.filter_append, List.filter_cons]
    rw [List.filter_eq_nil_iff.mpr (fun a ha => by simp [hpre a ha]),
      List.filter_eq_nil_iff.mpr (fun a ha => by simp [hmid a ha]),
      List.filter_eq_nil_iff.mpr (fun a ha => by simp [hpost a ha])]
    simp [h1, h2]
  rw [hfil]
  show pickBest (pickBest none f1) f2 = _
  by_cases hlt : f1.filesize.getD 0 < f2.filesize.getD 0
  · have hne : f2.filesize.getD 0 ≠ 0 := by omega
    simp [pickBest, hlt, hne]
  · rw [if_neg hlt]
    show pickBest (some f1) f2 = some f1
    rw [pickBest, if_neg (fun hc => hlt hc.2)]

/-- C1, witness: the amended theorem applied to the 50 MB / 80 MB pair. -/
theorem matcher_per_height_preference_witness :
    dictGet (available_resolutions ([] ++ exF1 :: ([] ++ exF2 :: []))) 720 =
      some (if exF1.filesize.getD 0 < exF2.filesize.getD 0 then exF2 else exF1) :=
  matcher_per_height_preference [] [] [] exF1 exF2 720 (by simp) (by simp) (by simp)
    (by decide) (by decide)

/-- C2: the match table's keys are a subset of the resolution catalog
{360, 480, 720, 1080, 1440, 2160}, and no key occurs twice, so at most one
record is associated to each height. -/
theorem matcher_keys_subset_and_unique (formats : List FormatRecord) :
    (available_resolutions formats).map Prod.fst ⊆ [360, 480, 720, 1080, 1440, 2160] ∧
    ((available_resolutions formats).map Prod.fst).Nodup := by
  constructor
  · intro k hk
    rcases List.mem_map.mp hk with ⟨p, hp, hpk⟩
    have h := (entryInv_available_resolutions formats p hp).2.1
    rw [hpk] at h
    exact h
  · exact keys_nodup_available_resolutions formats

/-- C3: a supplied height that is a key of the match table is returned
unchanged; a supplied height absent from the table is discarded and the
selection falls through to the interactive prompt. -/
theorem selector_supplied_height (formats : List FormatRecord) (r : Nat)
    (inputs : List String) :
    (dictGet (available_resolutions formats) r ≠ none →
      selectedRes formats (some r) inputs = r) ∧
    (dictGet (available_resolutions formats) r = none →
      selectedRes formats (some r) inputs =
        (prompt_for_resolution (available_resolutions formats) inputs).getD 0) := by
  constructor
  · intro hr
    have hr0 : r ≠ 0 := supported_heights_ne_zero r (key_mem_supported hr)
    simp [selectedRes, hr, hr0]
  · intro hr
    by_cases hr0 : r = 0
    · simp [selectedRes, hr0]
    · simp [selectedRes, hr, hr0]

/-- C3, witness: with 720 present in the table it is returned unchanged. -/
theorem selector_supplied_height_witness :
    selectedRes [exF1] (some 720) [] = 720 :=
  (selector_supplied_height [exF1] 720 []).1 (by decide)

/-- C4: with an empty format list the Matcher returns an empty table, the
Selector returns no selection, and the process exits with code 1 after
printing the "no supported resolutions" message to standard error. -/
theorem empty_formats_behavior (supplied : Option Nat) (inputs : List String)
    (downloadStatus : Int) :
    available_resolutions [] = [] ∧
    prompt_for_resolution [] inputs = none ∧
    (main_model [] supplied inputs downloadStatus).exitCode = 1 ∧
    noResMsg ∈ (main_model [] supplied inputs downloadStatus).stderrLines := by
  have hsel : selectedRes [] supplied inputs = 0 := by
    by_cases hs : supplied.getD 0 = 0 <;>
      simp [selectedRes, available_resolutions, prompt_for_resolution, dictGet, hs]
  refine ⟨rfl, rfl, ?_, ?_⟩ <;> simp [main_model, hsel]

/-- C5: the run exits with code 0 on success and code 1 exactly when no
resolution is selected or the download fails; the download error is raised
iff the collaborator's status is nonzero, and its message reaches stderr. -/
theorem exit_codes_and_download_error (formats : List FormatRecord)
    (supplied : Option Nat) (inputs : List String) (st : Int) :
    ((main_model formats supplied inputs st).exitCode =
      if selectedRes formats supplied inputs = 0 ∨ st ≠ 0 then 1 else 0) ∧
    (download_video st = Except.error dlErrMsg ↔ st ≠ 0) ∧
    (selectedRes formats supplied inputs ≠ 0 → st ≠ 0 →
      dlErrMsg ∈ (main_model formats supplied inputs st).stderrLines) := by
  refine ⟨?_, ?_, ?_⟩
  · by_cases h0 : selectedRes formats supplied inputs = 0
    · simp [main_model, h0]
    · by_cases hst : st = 0 <;> simp [main_model, download_video, h0, hst]
  · by_cases hst : st = 0 <;> simp [download_video, hst]
  · intro h0 hst
    simp [main_model, download_video, h0, hst]

/-- C5, witness: a failing download (status 1) after a successful selection
puts the download-error message on stderr. -/
theorem exit_codes_and_download_error_witness :
    dlErrMsg ∈ (main_model [exF1] none ["1"] 1).stderrLines :=
  (exit_codes_and_download_error [exF1] none ["1"] 1).2.2 (by decide) (by decide)

/-- C6: on the spec's example formats the match table holds exactly the 80 MB
720p record, the menu is the single line "1. 720p (~76.3 MB)" (printed with
the loop's two-space indentation), and with no pre-chosen height the Selector
returns 720 on input "1". -/
theorem example_menu_and_selection :
    available_resolutions [exF1, exF2, exF3] = [(720, exF2)] ∧
    menuLines (available_resolutions [exF1, exF2, exF3]) =
      ["  " ++ "1. 720p (~76.3 MB)"] ∧
    selectedRes [exF1, exF2, exF3] none ["1"] = 720 := by decide

/-- C7: the claim's "rejects every empty, non-numeric, or out-of-range input
line and reprompts without crashing" fails at the failing input.  On the
stdin line "²" (U+00B2, with a non-empty table) the guard
`selection.isdigit()` at line 78 is true, so the loop reaches
`int(selection)` at line 81, which raises `ValueError`; nothing catches it
and the process aborts — the valid line "1" waiting next is never read.  The
emptiness, non-digit and out-of-range rejections themselves reprompt as
claimed (the "", "abc" and "9" lines here), so the crash path is the single
divergence. -/
theorem prompt_crashes_on_superscript_digit :
    promptLoopPy (sortByCatalog [(720, exF2)]) ["", "abc", "9", "²", "1"] =
      PromptResult.raised ∧
    prompt_for_resolution [(720, exF2)] ["", "abc", "9", "1"] = some 720 := by decide

/-- C8: no record stored in the match table is audio-only
(`vcodec == "none"`) or lacks a height. -/
theorem matcher_excludes_audio_only_and_heightless (formats : List FormatRecord)
    (h : Nat) (fmt : FormatRecord)
    (hmem : (h, fmt) ∈ available_resolutions formats) :
    fmt.vcodec ≠ some "none" ∧ fmt.height ≠ none := by
  have hinv := entryInv_available_resolutions formats (h, fmt) hmem
  have hh : fmt.height = some h := hinv.1
  refine ⟨hinv.2.2.1, ?_⟩
  rw [hh]
  simp

/-- C8, witness: applied to the table built from the 720p example record. -/
theorem matcher_excludes_audio_only_and_heightless_witness :
    exF1.vcodec ≠ some "none" ∧ exF1.height ≠ none :=
  matcher_excludes_audio_only_and_heightless [exF1] 720 exF1 (by decide)

/-- C9: the Download Invoker's format expression is exactly the three-tier
fallback — exact-height mp4 video merged with m4a audio, then exact-height
video with any container plus best audio, then best combined stream at that
height — joined by yt-dlp's `/` fallback separator. -/
theorem build_format_string_three_tier (h : Nat) :
    build_format_string h =
      tierExactMp4 h ++ "/" ++ tierExactAny h ++ "/" ++ tierCombined h := by
  have m1 : ∀ x : String,
      "][ext=mp4]+bestaudio[ext=m4a]" ++ ("/" ++ ("bestvideo[height=" ++ x)) =
        "][ext=mp4]+bestaudio[ext=m4a]/bestvideo[height=" ++ x := fun _ => rfl
  have m2 : ∀ x : String,
      "]+bestaudio" ++ ("/" ++ ("best[height=" ++ x)) =
        "]+bestaudio/best[height=" ++ x := fun _ => rfl
  simp only [build_format_string, tierExactMp4, tierExactAny, tierCombined,
    String.append_assoc, m1, m2]
  rfl

/-- C10: a record whose height key is present but `0` contributes nothing to
the Matcher's output, exactly as a record with no height at all. -/
theorem zero_height_treated_as_missing (pre post : List FormatRecord)
    (f : FormatRecord) (hf : f.height = some 0 ∨ f.height = none) :
    available_resolutions (pre ++ f :: post) = available_resolutions (pre ++ post) := by
  have hgd : f.height.getD 0 = 0 := by rcases hf with h | h <;> simp [h]
  rw [available_resolutions, available_resolutions, List.foldl_append,
    List.foldl_append, List.foldl_cons]
  congr 1
  rw [stepDict, if_pos (Or.inl hgd)]

/-- C10, witness: a present-but-zero height record between two others changes
nothing. -/
theorem zero_height_treated_as_missing_witness :
    available_resolutions ([exF1] ++ zeroF :: [exF2]) =
      available_resolutions ([exF1] ++ [exF2]) :=
  zero_height_treated_as_missing [exF1] [exF2] zeroF (Or.inl rfl)

end Downloader
